import Mathlib

/-!
Verification of the casacore table-storage core against its specification.

The development shallowly embeds the parts of the code base the claims
touch: the data-type tag enumeration (DataType.cc), the typed binary
stream protocol (ByteSource/ByteSink family), the plain-column binding
state machine (PlainColumn.h), the in-memory region handler
(RegionHandlerMemory.h), the record-to-array conversion ladder
(Record2Interface.cc) and the error-signalling classes (Error2.cc).

Machine integers are modelled as Nat/Int with explicit bounds; fallible
operations return Option or Except.  Where the repository ships only a
declaration (header) of a function, the definition is modelled from the
specification and says so in its doc comment.
-/

/-- Data type tag enumeration of the table system.  The switch in
DataType.cc (operator<<) lists the tags in declaration order
TpBool .. TpOther; the enum declaration itself lives in the DataType
header, which is not part of the sources here, so the numbering is
modelled from that case order, with the TpQuantity/TpInt64 tags used by
Record2Interface.cc appended after TpOther as in the casacore header. -/
inductive DataType
| TpBool | TpChar | TpUChar | TpShort | TpUShort | TpInt | TpUInt
| TpFloat | TpDouble | TpComplex | TpDComplex | TpString | TpTable
| TpArrayBool | TpArrayChar | TpArrayUChar | TpArrayShort | TpArrayUShort
| TpArrayInt | TpArrayUInt | TpArrayFloat | TpArrayDouble | TpArrayComplex
| TpArrayDComplex | TpArrayString | TpRecord | TpOther
| TpQuantity | TpArrayQuantity | TpInt64 | TpArrayInt64
deriving DecidableEq, Fintype

/-- Numeric value of a DataType tag in enum declaration order. -/
def DataType.toCode : DataType → Nat
| .TpBool => 0
| .TpChar => 1
| .TpUChar => 2
| .TpShort => 3
| .TpUShort => 4
| .TpInt => 5
| .TpUInt => 6
| .TpFloat => 7
| .TpDouble => 8
| .TpComplex => 9
| .TpDComplex => 10
| .TpString => 11
| .TpTable => 12
| .TpArrayBool => 13
| .TpArrayChar => 14
| .TpArrayUChar => 15
| .TpArrayShort => 16
| .TpArrayUShort => 17
| .TpArrayInt => 18
| .TpArrayUInt => 19
| .TpArrayFloat => 20
| .TpArrayDouble => 21
| .TpArrayComplex => 22
| .TpArrayDComplex => 23
| .TpArrayString => 24
| .TpRecord => 25
| .TpOther => 26
| .TpQuantity => 27
| .TpArrayQuantity => 28
| .TpInt64 => 29
| .TpArrayInt64 => 30

/-- Translation of isScalar from DataType.cc: ToBool(type <= TpString). -/
def isScalar (t : DataType) : Bool :=
  decide (t.toCode ≤ DataType.TpString.toCode)

/-- Translation of isArray from DataType.cc:
ToBool(type >= TpArrayBool && type <= TpArrayString). -/
def isArray (t : DataType) : Bool :=
  decide (DataType.TpArrayBool.toCode ≤ t.toCode ∧
          t.toCode ≤ DataType.TpArrayString.toCode)

/-- Kinds of the error hierarchy of Error2.cc (AipsError and its
subclasses): not-found, duplicate, invalid-state, invalid-index,
allocation failure, stream/format trouble and the generic base kind. -/
inductive ErrKind
| notFound | duplicate | invalidState | invalidIndex | alloc | streamBad | generic
deriving DecidableEq

/-- An error value as signalled to the caller: a kind plus the
human-readable message the exception object carries. -/
structure Err where
  kind : ErrKind
  msg : String
deriving DecidableEq

/-- Observable outcome of constructing an exception object: either the
object is constructed and propagates to the immediate caller (raise), or
the constructor never returns because the process terminates (abort,
with its exit status and the diagnostic lines emitted before exiting). -/
inductive ExcOutcome
| raise (e : Err)
| abort (exitStatus : Nat) (diagnostic : List String)
deriving DecidableEq

/-- Translation of the AipsError(const String&) constructor of Error2.cc:
it only stores the message, so construction propagates the object. -/
def mkAipsError (str : String) : ExcOutcome :=
  .raise ⟨.generic, str⟩

/-- Translation of the DuplError exception family of Error2.cc:
construction stores the message and the object propagates. -/
def mkDuplError (str : String) : ExcOutcome :=
  .raise ⟨.duplicate, str⟩

/-- Translation of the IndexError exception family of Error2.cc:
construction stores the message and the object propagates. -/
def mkIndexError (str : String) : ExcOutcome :=
  .raise ⟨.invalidIndex, str⟩

/-- Translation of the AllocError exception family of Error2.cc:
construction stores the message and the object propagates. -/
def mkAllocError (str : String) : ExcOutcome :=
  .raise ⟨.alloc, str⟩

/-- Translation of AbortError::AbortError(const String&) of Error2.cc:
it writes two diagnostic lines to cerr and calls exit(1), so the
constructor never returns control to the caller. -/
def mkAbortError (str : String) : ExcOutcome :=
  .abort 1 ["An unrecoverable error occurred: ", str]

/-- Translation of AbortError::AbortError(const Char*) of Error2.cc;
identical to the String overload apart from the misspelled diagnostic
text, which is kept as the source writes it. -/
def mkAbortErrorChar (str : String) : ExcOutcome :=
  .abort 1 ["An unrevoverable error occurred: ", str]

/-- Test whether an exception-construction outcome terminated the
process instead of propagating. -/
def ExcOutcome.isAbort : ExcOutcome → Bool
| .raise _ => false
| .abort _ _ => true

/-- Big-endian encoding of a value into k bytes (most significant byte
first).  Modelled from the spec: the canonical physical encoding behind
ByteSink/ByteSource (the CanonicalIO implementation is not under the
sources here); the spec calls it "a portable big-endian-like canonical
form". -/
def encWord : Nat → Nat → List Nat
| 0, _ => []
| k+1, v => encWord k (v / 256) ++ [v % 256]

/-- Big-endian decoding of a byte list back into a value. -/
def decWord (bs : List Nat) : Nat :=
  bs.foldl (fun a b => 256 * a + b) 0

/-- Consume exactly k bytes from the stream; a short read yields none
(the stream-error condition of the spec). -/
def readBytes (k : Nat) (s : List Nat) : Option (List Nat × List Nat) :=
  if k ≤ s.length then some (s.take k, s.drop k) else none

/-- Consume a k-byte big-endian word from the stream. -/
def readWord (k : Nat) (s : List Nat) : Option (Nat × List Nat) :=
  match readBytes k s with
  | some (bs, r) => some (decWord bs, r)
  | none => none

/-- Two's complement representation of a signed value modulo m. -/
def toUnsigned (m : Nat) (v : Int) : Nat :=
  (v % (m : Int)).toNat

/-- Signed reading of a two's complement residue modulo m. -/
def toSigned (m : Nat) (n : Nat) : Int :=
  if 2 * n < m then (n : Int) else (n : Int) - (m : Nat)

/-- Type tags of the typed binary stream, one per overload of
ByteSource::operator>> in the ByteSource header. -/
inductive SType
| tBool | tChar | tUChar | tShort | tUShort | tInt | tUInt | tLong | tULong
| tFloat | tDouble | tComplex | tDComplex | tString
deriving DecidableEq

/-- Values carried by the typed binary stream.  Signed integral types
are Int with two's complement byte encoding, unsigned ones Nat;
floating-point values are carried as their machine bit patterns (the
stream moves them bit-for-bit, so their numeric reading never matters);
a complex value is its two real components; a string is its byte
sequence. -/
inductive SValue
| vBool (b : Bool)
| vChar (v : Int)
| vUChar (v : Nat)
| vShort (v : Int)
| vUShort (v : Nat)
| vInt (v : Int)
| vUInt (v : Nat)
| vLong (v : Int)
| vULong (v : Nat)
| vFloat (bits : Nat)
| vDouble (bits : Nat)
| vComplex (re im : Nat)
| vDComplex (re im : Nat)
| vString (cs : List Nat)
deriving DecidableEq

/-- Type tag of a stream value. -/
def SValue.typeOf : SValue → SType
| .vBool _ => .tBool
| .vChar _ => .tChar
| .vUChar _ => .tUChar
| .vShort _ => .tShort
| .vUShort _ => .tUShort
| .vInt _ => .tInt
| .vUInt _ => .tUInt
| .vLong _ => .tLong
| .vULong _ => .tULong
| .vFloat _ => .tFloat
| .vDouble _ => .tDouble
| .vComplex _ _ => .tComplex
| .vDComplex _ _ => .tDComplex
| .vString _ => .tString

/-- Well-formedness of a stream value: each component fits the machine
width of its type (Char 1 byte, Short 2, Int/Float 4, Long/Double 8;
a string holds bytes and its length fits the 4-byte length prefix). -/
def SValue.wf : SValue → Bool
| .vBool _ => true
| .vChar v => decide (-128 ≤ v ∧ v < 128)
| .vUChar v => decide (v < 256)
| .vShort v => decide (-32768 ≤ v ∧ v < 32768)
| .vUShort v => decide (v < 65536)
| .vInt v => decide (-2147483648 ≤ v ∧ v < 2147483648)
| .vUInt v => decide (v < 4294967296)
| .vLong v => decide (-9223372036854775808 ≤ v ∧ v < 9223372036854775808)
| .vULong v => decide (v < 18446744073709551616)
| .vFloat b => decide (b < 4294967296)
| .vDouble b => decide (b < 18446744073709551616)
| .vComplex re im => decide (re < 4294967296 ∧ im < 4294967296)
| .vDComplex re im => decide (re < 18446744073709551616 ∧ im < 18446744073709551616)
| .vString cs => decide (cs.length < 4294967296) && cs.all (fun c => decide (c < 256))

/-- Modelled from the spec: the single-value write operation of the
typed binary stream (ByteSink::operator<<; its implementation is not
under the sources here).  Booleans are one byte, signed integral types
their two's complement bytes, a complex value its two consecutive real
components, a string its 4-byte length prefix followed by the raw
bytes. -/
def writeVal : SValue → List Nat
| .vBool b => encWord 1 (if b then 1 else 0)
| .vChar v => encWord 1 (toUnsigned 256 v)
| .vUChar v => encWord 1 v
| .vShort v => encWord 2 (toUnsigned 65536 v)
| .vUShort v => encWord 2 v
| .vInt v => encWord 4 (toUnsigned 4294967296 v)
| .vUInt v => encWord 4 v
| .vLong v => encWord 8 (toUnsigned 18446744073709551616 v)
| .vULong v => encWord 8 v
| .vFloat b => encWord 4 b
| .vDouble b => encWord 8 b
| .vComplex re im => encWord 4 re ++ encWord 4 im
| .vDComplex re im => encWord 8 re ++ encWord 8 im
| .vString cs => encWord 4 cs.length ++ cs

/-- Modelled from the spec: the single-value read operation of the typed
binary stream (ByteSource::operator>>; its implementation is not under
the sources here).  Inverse of writeVal per type tag; a short stream
yields none. -/
def readVal (t : SType) (s : List Nat) : Option (SValue × List Nat) :=
  match t with
  | .tBool =>
    match readWord 1 s with
    | some (n, r) => some (.vBool (n != 0), r)
    | none => none
  | .tChar =>
    match readWord 1 s with
    | some (n, r) => some (.vChar (toSigned 256 n), r)
    | none => none
  | .tUChar =>
    match readWord 1 s with
    | some (n, r) => some (.vUChar n, r)
    | none => none
  | .tShort =>
    match readWord 2 s with
    | some (n, r) => some (.vShort (toSigned 65536 n), r)
    | none => none
  | .tUShort =>
    match readWord 2 s with
    | some (n, r) => some (.vUShort n, r)
    | none => none
  | .tInt =>
    match readWord 4 s with
    | some (n, r) => some (.vInt (toSigned 4294967296 n), r)
    | none => none
  | .tUInt =>
    match readWord 4 s with
    | some (n, r) => some (.vUInt n, r)
    | none => none
  | .tLong =>
    match readWord 8 s with
    | some (n, r) => some (.vLong (toSigned 18446744073709551616 n), r)
    | none => none
  | .tULong =>
    match readWord 8 s with
    | some (n, r) => some (.vULong n, r)
    | none => none
  | .tFloat =>
    match readWord 4 s with
    | some (n, r) => some (.vFloat n, r)
    | none => none
  | .tDouble =>
    match readWord 8 s with
    | some (n, r) => some (.vDouble n, r)
    | none => none
  | .tComplex =>
    match readWord 4 s with
    | some (re, r1) =>
      match readWord 4 r1 with
      | some (im, r2) => some (.vComplex re im, r2)
      | none => none
    | none => none
  | .tDComplex =>
    match readWord 8 s with
    | some (re, r1) =>
      match readWord 8 r1 with
      | some (im, r2) => some (.vDComplex re im, r2)
      | none => none
    | none => none
  | .tString =>
    match readWord 4 s with
    | some (n, r1) =>
      match readBytes n r1 with
      | some (cs, r2) => some (.vString cs, r2)
      | none => none
    | none => none

/-- Multi-value write of the typed binary stream (ByteSink::write with a
count): by definition the concatenation of the single-value writes, the
byte-identity law of the spec. -/
def writeMany : List SValue → List Nat
| [] => []
| v :: vs => writeVal v ++ writeMany vs

/-- Multi-value read of the typed binary stream (ByteSource::read with a
count): n sequential single-value reads. -/
def readMany (t : SType) : Nat → List Nat → Option (List SValue × List Nat)
| 0, s => some ([], s)
| n+1, s =>
  match readVal t s with
  | some (v, r) =>
    match readMany t n r with
    | some (vs, r2) => some (v :: vs, r2)
    | none => none
  | none => none

/-- A data manager (physical storage backend) as far as the column
binding contract observes it: whether it reports itself writable. -/
structure DataManager where
  writable : Bool
deriving DecidableEq

/-- The per-column handle inside a data manager, holding the column's
cells. -/
structure DataManagerColumn where
  cells : List Int
deriving DecidableEq

/-- State of a PlainColumn: the two pointers of PlainColumn.h
(dataManPtr_p, the non-owned back reference to the data manager, and
dataColPtr_p, the exclusively owned data manager column), each possibly
null. -/
structure PlainColumn where
  dataManPtr : Option DataManager
  dataColPtr : Option DataManagerColumn
deriving DecidableEq

/-- Modelled from the spec: a newly constructed PlainColumn (the
PlainColumn constructor body is not under the sources here); both
pointers start null, so the column is unbound. -/
def PlainColumn.construct : PlainColumn :=
  { dataManPtr := none, dataColPtr := none }

/-- Translation of PlainColumn::isBound: the column is bound when a data
manager column pointer is attached. -/
def PlainColumn.isBound (c : PlainColumn) : Bool :=
  c.dataColPtr.isSome

/-- Modelled from the spec: PlainColumn::isWritable is true iff the
column is bound and its data manager reports writable (the
implementation is not under the sources here). -/
def PlainColumn.isWritable (c : PlainColumn) : Bool :=
  c.isBound && (match c.dataManPtr with
                | some dm => dm.writable
                | none => false)

/-- Modelled from the spec: PlainColumn::bind attaches a data manager
exactly once; a second call signals an Invalid-State (rebind) error (the
implementation is not under the sources here).  Binding attaches both
the data manager back reference and the column handle. -/
def PlainColumn.bind (c : PlainColumn) (dm : DataManager) : Except Err PlainColumn :=
  if c.isBound then
    .error ⟨.invalidState, "PlainColumn: column is already bound to a data manager"⟩
  else
    .ok { dataManPtr := some dm, dataColPtr := some { cells := [] } }

/-- Modelled from the spec: a scalar get on a PlainColumn delegates to
the data manager column; before a successful bind there is none, which
signals an Invalid-State error. -/
def PlainColumn.getScalar (c : PlainColumn) (row : Nat) : Except Err Int :=
  match c.dataColPtr with
  | none => .error ⟨.invalidState, "PlainColumn: get on unbound column"⟩
  | some col =>
    match col.cells.get? row with
    | some v => .ok v
    | none => .error ⟨.invalidIndex, "PlainColumn: row index out of range"⟩

/-- Modelled from the spec: a scalar put on a PlainColumn delegates to
the data manager column; before a successful bind there is none, which
signals an Invalid-State error, and a put on a non-writable column also
signals an Invalid-State error. -/
def PlainColumn.putScalar (c : PlainColumn) (row : Nat) (v : Int) :
    Except Err PlainColumn :=
  match c.dataColPtr with
  | none => .error ⟨.invalidState, "PlainColumn: put on unbound column"⟩
  | some col =>
    if c.isWritable then
      .ok { c with dataColPtr := some { cells := col.cells.set row v } }
    else
      .error ⟨.invalidState, "PlainColumn: put on non-writable column"⟩

/-- A value offered to PlainColumn::checkValueLength: a string, an array
of strings, or any other value (the const void* overload). -/
inductive TValue
| tvString (s : String)
| tvArrayString (ss : List String)
| tvOther (d : DataType) (payload : List Int)
deriving DecidableEq

/-- PlainColumn::checkValueLength.  The non-string (const void*)
overload is the inline no-op of PlainColumn.h; the String and
Array-of-String overloads are modelled from the spec (their bodies are
not under the sources here): with a declared maximum length they reject
too-long values before delegating to the data manager.  The column is
returned unchanged on success (the member function is const). -/
def PlainColumn.checkValueLength (c : PlainColumn) (maxLength : Nat) (v : TValue) :
    Except Err PlainColumn :=
  match v with
  | .tvString s =>
    if 0 < maxLength ∧ maxLength < s.length then
      .error ⟨.invalidState, "PlainColumn: string value exceeds maximum length"⟩
    else
      .ok c
  | .tvArrayString ss =>
    if 0 < maxLength ∧ ss.any (fun s => maxLength < s.length) then
      .error ⟨.invalidState, "PlainColumn: string value exceeds maximum length"⟩
    else
      .ok c
  | .tvOther _ _ => .ok c

/-- A region object as stored by the in-memory region handler (the
handler stores opaque owned copies; only identity/equality of the stored
content matters here). -/
structure ImageRegion where
  content : Nat
deriving DecidableEq

/-- The group selector of RegionHandler: the regions namespace, the
masks namespace, or either. -/
inductive GroupType
| Regions | Masks | Any
deriving DecidableEq

/-- State of a RegionHandlerMemory: the default mask name and the two
name-to-region maps itsMaps[2] of RegionHandlerMemory.h (index 0 the
regions namespace, index 1 the masks namespace), modelled as association
lists. -/
structure RegionHandlerMemory where
  itsDefaultName : String
  regionsMap : List (String × ImageRegion)
  masksMap : List (String × ImageRegion)
deriving DecidableEq

/-- Lookup in one namespace map. -/
def alookup : List (String × ImageRegion) → String → Option ImageRegion
| [], _ => none
| (k, v) :: rest, n => if k = n then some v else alookup rest n

/-- Erase a name from one namespace map. -/
def aremove : List (String × ImageRegion) → String → List (String × ImageRegion)
| [], _ => []
| (k, v) :: rest, n => if k = n then aremove rest n else (k, v) :: aremove rest n

/-- Insert-or-replace a binding in one namespace map (std::map
assignment semantics). -/
def ainsert (m : List (String × ImageRegion)) (n : String) (r : ImageRegion) :
    List (String × ImageRegion) :=
  (n, r) :: aremove m n

/-- The namespace map selected by a group index (false = regions,
true = masks), mirroring itsMaps[0] / itsMaps[1]. -/
def RegionHandlerMemory.mapOf (st : RegionHandlerMemory) (isMask : Bool) :
    List (String × ImageRegion) :=
  if isMask then st.masksMap else st.regionsMap

/-- Replace the namespace map selected by a group index. -/
def RegionHandlerMemory.setMap (st : RegionHandlerMemory) (isMask : Bool)
    (m : List (String × ImageRegion)) : RegionHandlerMemory :=
  if isMask then { st with masksMap := m } else { st with regionsMap := m }

/-- Modelled from the spec: RegionHandlerMemory::findRegionGroup (its
body is not under the sources here) returns the index of the namespace
holding the name, searching the namespaces the group selector allows,
or the not-found sentinel; here the sentinel is none.  The search order
between the two namespaces is not fixed by the spec; regions is searched
first. -/
def RegionHandlerMemory.findRegionGroup (st : RegionHandlerMemory) (name : String)
    (g : GroupType) : Option Bool :=
  if g ≠ GroupType.Masks ∧ (alookup st.regionsMap name).isSome then some false
  else if g ≠ GroupType.Regions ∧ (alookup st.masksMap name).isSome then some true
  else none

/-- Translation of RegionHandlerMemory::hasRegion: is the name present
in a namespace the group selector allows? -/
def RegionHandlerMemory.hasRegion (st : RegionHandlerMemory) (name : String)
    (g : GroupType) : Bool :=
  (st.findRegionGroup name g).isSome

/-- Modelled from the spec: RegionHandlerMemory::defineRegion (its body
is not under the sources here).  The group selector picks the regions or
masks namespace; if the name already exists there and overwrite is
false, a duplicate-name error is signalled, otherwise the stored region
is replaced.  Per the spec the two namespaces are disjoint mappings and
a name may exist in both, so only the selected namespace is checked.
On success the call always reports a True status, returned here as the
updated handler state. -/
def RegionHandlerMemory.defineRegion (st : RegionHandlerMemory) (name : String)
    (region : ImageRegion) (g : GroupType) (overwrite : Bool) :
    Except Err RegionHandlerMemory :=
  let isMask := g = GroupType.Masks
  if ¬overwrite ∧ (alookup (st.mapOf isMask) name).isSome then
    .error ⟨.duplicate, "defineRegion: region already exists"⟩
  else
    .ok (st.setMap isMask (ainsert (st.mapOf isMask) name region))

/-- Modelled from the spec: RegionHandlerMemory::getRegion (its body is
not under the sources here).  When the name exists, the caller receives
an independently owned clone of the stored region (a value copy here);
when it is absent, the result is empty (none) without an error if
throwIfUnknown is false, and a not-found error otherwise. -/
def RegionHandlerMemory.getRegion (st : RegionHandlerMemory) (name : String)
    (g : GroupType) (throwIfUnknown : Bool) : Except Err (Option ImageRegion) :=
  match st.findRegionGroup name g with
  | some isMask => .ok (alookup (st.mapOf isMask) name)
  | none =>
    if throwIfUnknown then .error ⟨.notFound, "getRegion: region does not exist"⟩
    else .ok none

/-- Modelled from the spec: RegionHandlerMemory::renameRegion (its body
is not under the sources here).  A not-found error is signalled when the
old name is absent from the searched namespaces; when the new name is
already present in the namespace the old entry was found in and
overwrite is false, a duplicate error is signalled; otherwise the old
entry is removed from, and the new entry inserted into, that same
namespace. -/
def RegionHandlerMemory.renameRegion (st : RegionHandlerMemory) (newName oldName : String)
    (g : GroupType) (overwrite : Bool) : Except Err RegionHandlerMemory :=
  match st.findRegionGroup oldName g with
  | none => .error ⟨.notFound, "renameRegion: old region does not exist"⟩
  | some isMask =>
    match alookup (st.mapOf isMask) oldName with
    | none => .error ⟨.notFound, "renameRegion: old region does not exist"⟩
    | some r =>
      if ¬overwrite ∧ (alookup (st.mapOf isMask) newName).isSome then
        .error ⟨.duplicate, "renameRegion: new region name already exists"⟩
      else
        .ok (st.setMap isMask (ainsert (aremove (st.mapOf isMask) oldName) newName r))

/-- Modelled from the spec: RegionHandlerMemory::removeRegion (its body
is not under the sources here).  The name is removed from the namespace
in which it is found; absence signals a not-found error only when
throwIfUnknown is true, otherwise the state is unchanged. -/
def RegionHandlerMemory.removeRegion (st : RegionHandlerMemory) (name : String)
    (g : GroupType) (throwIfUnknown : Bool) : Except Err RegionHandlerMemory :=
  match st.findRegionGroup name g with
  | some isMask => .ok (st.setMap isMask (aremove (st.mapOf isMask) name))
  | none =>
    if throwIfUnknown then .error ⟨.notFound, "removeRegion: region does not exist"⟩
    else .ok st

/-- A record field as the toArray conversion ladder of
Record2Interface.cc observes it: its stored data type tag, its shape and
its elementwise stored values.  Integral element values are carried as
Int (their mathematical value). -/
structure RecField where
  dtype : DataType
  shape : List Nat
  values : List Int
deriving DecidableEq

/-- Two's complement narrowing of an integer to the signed 32-bit Int of
the table system, as convertArray performs elementwise for a wider
stored integral type. -/
def wrap32 (v : Int) : Int :=
  (v + 2147483648) % 4294967296 - 2147483648

/-- Modelled from the spec: RecordInterface::asArrayInt (defined outside
the sources here) succeeds exactly on an Int-typed field and signals an
invalid-conversion error otherwise. -/
def asArrayIntM (f : RecField) : Except Err (List Nat × List Int) :=
  if f.dtype = DataType.TpInt ∨ f.dtype = DataType.TpArrayInt then
    .ok (f.shape, f.values)
  else
    .error ⟨.generic, "asArrayInt: invalid data type"⟩

/-- Translation of RecordInterface::toArrayInt of Record2Interface.cc:
the switch on the stored field type resizes the result to the stored
shape and converts elementwise for uChar, Short, uInt and Int64 stored
fields, and otherwise falls through to asArrayInt.  The uChar and Short
conversions are value preserving; the uInt and Int64 conversions
truncate to 32 bits in two's complement. -/
def toArrayIntM (f : RecField) : Except Err (List Nat × List Int) :=
  match f.dtype with
  | .TpUChar => .ok (f.shape, f.values)
  | .TpArrayUChar => .ok (f.shape, f.values)
  | .TpShort => .ok (f.shape, f.values)
  | .TpArrayShort => .ok (f.shape, f.values)
  | .TpUInt => .ok (f.shape, f.values.map wrap32)
  | .TpArrayUInt => .ok (f.shape, f.values.map wrap32)
  | .TpInt64 => .ok (f.shape, f.values.map wrap32)
  | .TpArrayInt64 => .ok (f.shape, f.values.map wrap32)
  | _ => asArrayIntM f

/-- Round n to the nearest multiple of ulp, ties to even (in multiples
of ulp); ulp is expected positive. -/
def roundHalfEven (n ulp : Nat) : Nat :=
  let q := n / ulp
  let r := n % ulp
  if 2 * r < ulp then q * ulp
  else if ulp < 2 * r then (q + 1) * ulp
  else if q % 2 = 0 then q * ulp
  else (q + 1) * ulp

/-- Floor of the base-2 logarithm, by structural recursion on a fuel
bound (the first argument); log2floor n uses n itself as fuel. -/
def log2floorAux : Nat → Nat → Nat
| 0, _ => 0
| fuel + 1, n => if n ≤ 1 then 0 else log2floorAux fuel (n / 2) + 1

/-- Floor of the base-2 logarithm of n (0 for n = 0). -/
def log2floor (n : Nat) : Nat :=
  log2floorAux n n

/-- Narrowing of an integer magnitude to the binary32-representable
integers: exact up to 2^24, above that rounded to the nearest multiple
of the local float spacing 2^(e-23), ties to even. -/
def roundToFloatNat (n : Nat) : Nat :=
  if n ≤ 16777216 then n
  else roundHalfEven n (2 ^ (log2floor n - 23))

/-- Modelled from the spec: the elementwise narrowing conversion to
Float performed by convertArray in the toArrayFloat ladder (the
conversion itself is the C++ built-in, outside the sources; the spec
fixes only that it is silent, defined and lossy).  The model's floating
elements are integer-valued, and on these the conversion is
round-to-nearest, ties to even, into the binary32-representable
integers; the binary32 overflow region (magnitudes at or beyond 2^128)
lies outside the modelled domain. -/
def roundToFloat (v : Int) : Int :=
  if v < 0 then -(roundToFloatNat v.natAbs : Int)
  else (roundToFloatNat v.natAbs : Int)

/-- Modelled from the spec: RecordInterface::asArrayFloat (defined
outside the sources here) succeeds exactly on a Float-typed field and
signals an invalid-conversion error otherwise, as implied by the
explicit per-type conversion cases of the toArrayFloat switch. -/
def asArrayFloatM (f : RecField) : Except Err (List Nat × List Int) :=
  if f.dtype = DataType.TpFloat ∨ f.dtype = DataType.TpArrayFloat then
    .ok (f.shape, f.values)
  else
    .error ⟨.generic, "asArrayFloat: invalid data type"⟩

/-- Translation of RecordInterface::toArrayFloat of Record2Interface.cc:
the switch on the stored field type resizes the result to the stored
shape and converts elementwise for uChar, Short, Int, uInt, Int64 and
Double stored fields, and otherwise falls through to asArrayFloat.
Every conversion branch applies the elementwise narrowing to Float; on
uChar and Short values it is value preserving, on the wider stored
types it is lossy. -/
def toArrayFloatM (f : RecField) : Except Err (List Nat × List Int) :=
  match f.dtype with
  | .TpUChar | .TpArrayUChar => .ok (f.shape, f.values.map roundToFloat)
  | .TpShort | .TpArrayShort => .ok (f.shape, f.values.map roundToFloat)
  | .TpInt | .TpArrayInt => .ok (f.shape, f.values.map roundToFloat)
  | .TpUInt | .TpArrayUInt => .ok (f.shape, f.values.map roundToFloat)
  | .TpInt64 | .TpArrayInt64 => .ok (f.shape, f.values.map roundToFloat)
  | .TpDouble | .TpArrayDouble => .ok (f.shape, f.values.map roundToFloat)
  | _ => asArrayFloatM f

theorem encWord_length (k v : Nat) : (encWord k v).length = k := by
  induction k generalizing v with
  | zero => rfl
  | succ k ih => simp [encWord, ih]

theorem decWord_encWord_aux (k v a : Nat) (h : v < 256 ^ k) :
    List.foldl (fun x b => 256 * x + b) a (encWord k v) = a * 256 ^ k + v := by
  induction k generalizing v a with
  | zero =>
    have hv : v = 0 := by simpa using h
    simp [encWord, hv]
  | succ k ih =>
    have hdiv : v / 256 < 256 ^ k := by
      have h2 : v < 256 ^ k * 256 := by simpa [pow_succ] using h
      omega
    have hm : 256 * (v / 256) + v % 256 = v := Nat.div_add_mod v 256
    simp only [encWord, List.foldl_append, List.foldl_cons, List.foldl_nil, ih _ _ hdiv]
    rw [pow_succ, Nat.mul_add, Nat.add_assoc, hm]
    ring

theorem decWord_encWord (k v : Nat) (h : v < 256 ^ k) :
    decWord (encWord k v) = v := by
  simpa [decWord] using decWord_encWord_aux k v 0 h

theorem readBytes_append (bs rest : List Nat) :
    readBytes bs.length (bs ++ rest) = some (bs, rest) := by
  have hle : bs.length ≤ (bs ++ rest).length := by simp
  simp [readBytes, hle, List.take_left, List.drop_left]

theorem readWord_enc (k v : Nat) (rest : List Nat) (h : v < 256 ^ k) :
    readWord k (encWord k v ++ rest) = some (v, rest) := by
  have h1 : readBytes k (encWord k v ++ rest) = some (encWord k v, rest) := by
    have h2 := readBytes_append (encWord k v) rest
    rwa [encWord_length] at h2
  simp [readWord, h1, decWord_encWord k v h]

theorem toSigned_toUnsigned (m : Nat) (v : Int)
    (h1 : -(m : Int) ≤ 2 * v) (h2 : 2 * v < (m : Int)) :
    toSigned m (toUnsigned m v) = v := by
  by_cases hv : 0 ≤ v
  · have he : v % (m : Int) = v := Int.emod_eq_of_lt hv (by omega)
    simp only [toUnsigned, toSigned, he]
    have h3 : 2 * v.toNat < m := by omega
    rw [if_pos h3, Int.toNat_of_nonneg hv]
  · have hge : 0 ≤ v + (m : Int) := by omega
    have he : v % (m : Int) = v + (m : Int) := by
      have h3 : (v + (m : Int) * 1) % (m : Int) = v % (m : Int) :=
        @Int.add_mul_emod_self_left v (m : Int) 1
      rw [mul_one] at h3
      rw [← h3, Int.emod_eq_of_lt hge (by omega)]
    simp only [toUnsigned, toSigned, he]
    have h4 : ¬ (2 * (v + (m : Int)).toNat < m) := by omega
    rw [if_neg h4]
    omega

theorem readVal_writeVal (v : SValue) (rest : List Nat) (h : v.wf = true) :
    readVal v.typeOf (writeVal v ++ rest) = some (v, rest) := by
  cases v with
  | vBool b =>
    cases b
    · simp [writeVal, SValue.typeOf, readVal, readWord_enc 1 0 rest (by norm_num)]
    · simp [writeVal, SValue.typeOf, readVal, readWord_enc 1 1 rest (by norm_num)]
  | vChar x =>
    simp only [SValue.wf, decide_eq_true_eq] at h
    have hb : toUnsigned 256 x < 256 ^ 1 := by
      simp only [toUnsigned, pow_one]
      omega
    simp only [writeVal, SValue.typeOf, readVal, readWord_enc 1 _ rest hb]
    rw [toSigned_toUnsigned 256 x (by omega) (by omega)]
  | vUChar x =>
    simp only [SValue.wf, decide_eq_true_eq] at h
    simp [writeVal, SValue.typeOf, readVal, readWord_enc 1 x rest (by simpa using h)]
  | vShort x =>
    simp only [SValue.wf, decide_eq_true_eq] at h
    have hb : toUnsigned 65536 x < 256 ^ 2 := by
      simp only [toUnsigned]
      omega
    simp only [writeVal, SValue.typeOf, readVal, readWord_enc 2 _ rest hb]
    rw [toSigned_toUnsigned 65536 x (by omega) (by omega)]
  | vUShort x =>
    simp only [SValue.wf, decide_eq_true_eq] at h
    simp [writeVal, SValue.typeOf, readVal, readWord_enc 2 x rest (by norm_num; omega)]
  | vInt x =>
    simp only [SValue.wf, decide_eq_true_eq] at h
    have hb : toUnsigned 4294967296 x < 256 ^ 4 := by
      simp only [toUnsigned]
      omega
    simp only [writeVal, SValue.typeOf, readVal, readWord_enc 4 _ rest hb]
    rw [toSigned_toUnsigned 4294967296 x (by omega) (by omega)]
  | vUInt x =>
    simp only [SValue.wf, decide_eq_true_eq] at h
    simp [writeVal, SValue.typeOf, readVal, readWord_enc 4 x rest (by norm_num; omega)]
  | vLong x =>
    simp only [SValue.wf, decide_eq_true_eq] at h
    have hb : toUnsigned 18446744073709551616 x < 256 ^ 8 := by
      simp only [toUnsigned]
      omega
    simp only [writeVal, SValue.typeOf, readVal, readWord_enc 8 _ rest hb]
    rw [toSigned_toUnsigned 18446744073709551616 x (by omega) (by omega)]
  | vULong x =>
    simp only [SValue.wf, decide_eq_true_eq] at h
    simp [writeVal, SValue.typeOf, readVal, readWord_enc 8 x rest (by norm_num; omega)]
  | vFloat b =>
    simp only [SValue.wf, decide_eq_true_eq] at h
    simp [writeVal, SValue.typeOf, readVal, readWord_enc 4 b rest (by norm_num; omega)]
  | vDouble b =>
    simp only [SValue.wf, decide_eq_true_eq] at h
    simp [writeVal, SValue.typeOf, readVal, readWord_enc 8 b rest (by norm_num; omega)]
  | vComplex re im =>
    simp only [SValue.wf, decide_eq_true_eq] at h
    simp only [writeVal, SValue.typeOf, readVal, List.append_assoc,
      readWord_enc 4 re _ (by norm_num; omega), readWord_enc 4 im rest (by norm_num; omega)]
  | vDComplex re im =>
    simp only [SValue.wf, decide_eq_true_eq] at h
    simp only [writeVal, SValue.typeOf, readVal, List.append_assoc,
      readWord_enc 8 re _ (by norm_num; omega), readWord_enc 8 im rest (by norm_num; omega)]
  | vString cs =>
    simp only [SValue.wf, Bool.and_eq_true, decide_eq_true_eq] at h
    have hb : cs.length < 256 ^ 4 := by
      have h1 := h.1
      norm_num
      omega
    simp only [writeVal, SValue.typeOf, readVal, List.append_assoc,
      readWord_enc 4 cs.length _ hb, readBytes_append cs rest]

theorem readMany_writeMany (t : SType) (vs : List SValue) (rest : List Nat)
    (h : ∀ v ∈ vs, v.typeOf = t ∧ v.wf = true) :
    readMany t vs.length (writeMany vs ++ rest) = some (vs, rest) := by
  induction vs generalizing rest with
  | nil => simp [writeMany, readMany]
  | cons v vs ih =>
    obtain ⟨ht, hw⟩ := h v (List.mem_cons_self v vs)
    have hrest : ∀ w ∈ vs, w.typeOf = t ∧ w.wf = true :=
      fun w hmem => h w (List.mem_cons_of_mem v hmem)
    simp only [writeMany, List.append_assoc, List.length_cons, readMany]
    have hv := readVal_writeVal v (writeMany vs ++ rest) hw
    rw [ht] at hv
    rw [hv]
    simp [ih rest hrest]

theorem alookup_ainsert_self (m : List (String × ImageRegion)) (n : String)
    (r : ImageRegion) : alookup (ainsert m n r) n = some r := by
  simp [ainsert, alookup]

theorem alookup_aremove_self (m : List (String × ImageRegion)) (n : String) :
    alookup (aremove m n) n = none := by
  induction m with
  | nil => rfl
  | cons p rest ih =>
    obtain ⟨k, v⟩ := p
    by_cases hk : k = n <;> simp [aremove, alookup, hk, ih]

theorem alookup_aremove_ne (m : List (String × ImageRegion)) (n k : String)
    (h : k ≠ n) : alookup (aremove m n) k = alookup m k := by
  induction m with
  | nil => rfl
  | cons p rest ih =>
    obtain ⟨k1, v⟩ := p
    by_cases h1 : k1 = n
    · have h2 : k1 ≠ k := by
        intro hx
        exact h (hx ▸ h1)
      simp [aremove, alookup, h1, h2, Ne.symm h, ih]
    · by_cases h2 : k1 = k <;> simp [aremove, alookup, h1, h2, h, ih]

theorem alookup_ainsert_ne (m : List (String × ImageRegion)) (n k : String)
    (r : ImageRegion) (h : k ≠ n) :
    alookup (ainsert m n r) k = alookup m k := by
  have h1 : n ≠ k := fun hx => h hx.symm
  simp [ainsert, alookup, h1, alookup_aremove_ne m n k h]

/-- Claim C10: the scalar and array classifications of the data-type tag
enumeration partition it: no tag is both scalar and array; isScalar
holds exactly for TpBool through TpString, isArray exactly for
TpArrayBool through TpArrayString, and TpTable, TpRecord and TpOther are
neither. -/
theorem dataType_scalar_array_partition :
    (∀ t : DataType, ¬(isScalar t = true ∧ isArray t = true)) ∧
    (∀ t : DataType, isScalar t = true ↔
      (DataType.TpBool.toCode ≤ t.toCode ∧ t.toCode ≤ DataType.TpString.toCode)) ∧
    (∀ t : DataType, isArray t = true ↔
      (DataType.TpArrayBool.toCode ≤ t.toCode ∧
       t.toCode ≤ DataType.TpArrayString.toCode)) ∧
    isScalar DataType.TpTable = false ∧ isArray DataType.TpTable = false ∧
    isScalar DataType.TpRecord = false ∧ isArray DataType.TpRecord = false ∧
    isScalar DataType.TpOther = false ∧ isArray DataType.TpOther = false := by
  decide

/-- Claim C8: constructing an abort (Unrecoverable) error emits a
human-readable diagnostic and terminates the process with exit status 1,
never returning control and never propagating, while all other error
kinds propagate to the immediate caller. -/
theorem abortError_terminates_with_status_one :
    ∀ str : String,
      mkAbortError str =
        ExcOutcome.abort 1 ["An unrecoverable error occurred: ", str] ∧
      mkAbortErrorChar str =
        ExcOutcome.abort 1 ["An unrevoverable error occurred: ", str] ∧
      (mkAbortError str).isAbort = true ∧
      (mkAbortErrorChar str).isAbort = true ∧
      (mkAipsError str).isAbort = false ∧
      (mkDuplError str).isAbort = false ∧
      (mkIndexError str).isAbort = false ∧
      (mkAllocError str).isAbort = false :=
  fun _ => ⟨rfl, rfl, rfl, rfl, rfl, rfl, rfl, rfl⟩

/-- Claim C9: for every value that is not a String and not an array of
String, PlainColumn::checkValueLength is a no-op returning the column
unchanged and signalling no error; length validation happens only for
string values with a declared maximum length, shown by the rejecting
string branch. -/
theorem checkValueLength_nonstring_noop :
    (∀ (c : PlainColumn) (maxLength : Nat) (d : DataType) (payload : List Int),
      c.checkValueLength maxLength (TValue.tvOther d payload) = .ok c) ∧
    (∀ (c : PlainColumn) (maxLength : Nat) (s : String),
      0 < maxLength → maxLength < s.length →
      c.checkValueLength maxLength (TValue.tvString s) =
        .error ⟨.invalidState, "PlainColumn: string value exceeds maximum length"⟩) := by
  constructor
  · intro c maxLength d payload
    rfl
  · intro c maxLength s h1 h2
    simp [PlainColumn.checkValueLength, h1, h2]

/-- Witness for C9 at a concrete column, maximum length and values. -/
theorem checkValueLength_nonstring_noop_witness :
    PlainColumn.construct.checkValueLength 3 (TValue.tvOther DataType.TpInt [7]) =
      .ok PlainColumn.construct ∧
    PlainColumn.construct.checkValueLength 3 (TValue.tvString "abcd") =
      .error ⟨.invalidState, "PlainColumn: string value exceeds maximum length"⟩ :=
  ⟨checkValueLength_nonstring_noop.1 PlainColumn.construct 3 DataType.TpInt [7],
   checkValueLength_nonstring_noop.2 PlainColumn.construct 3 "abcd"
     (by decide) (by decide)⟩

/-- Claim C2: a newly constructed PlainColumn is unbound; get and put
before a successful bind signal an Invalid-State error; after one
successful bind a second bind signals an Invalid-State (rebind) error;
and a column bound to a read-only data manager is not writable even
though it is bound. -/
theorem plainColumn_binding_invariants :
    PlainColumn.construct.isBound = false ∧
    (∀ (c : PlainColumn) (row : Nat), c.isBound = false →
      c.getScalar row =
        .error ⟨.invalidState, "PlainColumn: get on unbound column"⟩) ∧
    (∀ (c : PlainColumn) (row : Nat) (v : Int), c.isBound = false →
      c.putScalar row v =
        .error ⟨.invalidState, "PlainColumn: put on unbound column"⟩) ∧
    (∀ (c c2 : PlainColumn) (dm : DataManager), c.bind dm = .ok c2 →
      c2.isBound = true ∧
      ∀ dm2, c2.bind dm2 =
        .error ⟨.invalidState, "PlainColumn: column is already bound to a data manager"⟩) ∧
    (∀ (c c2 : PlainColumn) (dm : DataManager), dm.writable = false →
      c.bind dm = .ok c2 → c2.isBound = true ∧ c2.isWritable = false) := by
  have hnone : ∀ c : PlainColumn, c.isBound = false → c.dataColPtr = none := by
    intro c h
    cases hc : c.dataColPtr with
    | none => rfl
    | some col =>
      rw [PlainColumn.isBound, hc] at h
      simp at h
  refine ⟨rfl, ?_, ?_, ?_, ?_⟩
  · intro c row h
    rw [PlainColumn.getScalar, hnone c h]
  · intro c row v h
    rw [PlainColumn.putScalar, hnone c h]
  · intro c c2 dm h
    rw [PlainColumn.bind] at h
    by_cases hb : c.isBound
    · rw [if_pos hb] at h
      exact absurd h (by simp)
    · rw [if_neg hb] at h
      have h2 := Except.ok.inj h
      subst h2
      exact ⟨rfl, fun dm2 => rfl⟩
  · intro c c2 dm hw h
    rw [PlainColumn.bind] at h
    by_cases hb : c.isBound
    · rw [if_pos hb] at h
      exact absurd h (by simp)
    · rw [if_neg hb] at h
      have h2 := Except.ok.inj h
      subst h2
      refine ⟨rfl, ?_⟩
      simp [PlainColumn.isWritable, PlainColumn.isBound, hw]

/-- Witness for C2 at a concrete fresh column and a concrete read-only
data manager. -/
theorem plainColumn_binding_invariants_witness :
    PlainColumn.construct.getScalar 0 =
      .error ⟨.invalidState, "PlainColumn: get on unbound column"⟩ ∧
    PlainColumn.construct.putScalar 0 5 =
      .error ⟨.invalidState, "PlainColumn: put on unbound column"⟩ ∧
    ((⟨some ⟨false⟩, some ⟨[]⟩⟩ : PlainColumn).isBound = true ∧
      ∀ dm2, (⟨some ⟨false⟩, some ⟨[]⟩⟩ : PlainColumn).bind dm2 =
        .error ⟨.invalidState, "PlainColumn: column is already bound to a data manager"⟩) ∧
    ((⟨some ⟨false⟩, some ⟨[]⟩⟩ : PlainColumn).isBound = true ∧
      (⟨some ⟨false⟩, some ⟨[]⟩⟩ : PlainColumn).isWritable = false) :=
  ⟨plainColumn_binding_invariants.2.1 PlainColumn.construct 0 rfl,
   plainColumn_binding_invariants.2.2.1 PlainColumn.construct 0 5 rfl,
   plainColumn_binding_invariants.2.2.2.1 PlainColumn.construct ⟨some ⟨false⟩, some ⟨[]⟩⟩
     ⟨false⟩ rfl,
   plainColumn_binding_invariants.2.2.2.2 PlainColumn.construct ⟨some ⟨false⟩, some ⟨[]⟩⟩
     ⟨false⟩ rfl rfl⟩

theorem hasRegion_masks_false_lookup (st : RegionHandlerMemory) (n : String)
    (h : st.hasRegion n GroupType.Masks = false) :
    alookup st.masksMap n = none := by
  rw [RegionHandlerMemory.hasRegion, RegionHandlerMemory.findRegionGroup] at h
  by_cases h2 : (alookup st.masksMap n).isSome
  · simp [h2] at h
  · exact Option.not_isSome_iff_eq_none.mp h2

theorem hasRegion_any_false_lookup (st : RegionHandlerMemory) (n : String)
    (h : st.hasRegion n GroupType.Any = false) :
    alookup st.regionsMap n = none ∧ alookup st.masksMap n = none := by
  rw [RegionHandlerMemory.hasRegion, RegionHandlerMemory.findRegionGroup] at h
  by_cases h1 : (alookup st.regionsMap n).isSome
  · simp [h1] at h
  · by_cases h2 : (alookup st.masksMap n).isSome
    · simp [h1, h2] at h
    · exact ⟨Option.not_isSome_iff_eq_none.mp h1, Option.not_isSome_iff_eq_none.mp h2⟩

theorem findRegionGroup_some_lookup (st : RegionHandlerMemory) (n : String)
    (g : GroupType) (isMask : Bool)
    (h : st.findRegionGroup n g = some isMask) :
    (alookup (st.mapOf isMask) n).isSome = true := by
  rw [RegionHandlerMemory.findRegionGroup] at h
  by_cases h1 : g ≠ GroupType.Masks ∧ (alookup st.regionsMap n).isSome
  · rw [if_pos h1] at h
    have h2 := Option.some.inj h
    subst h2
    exact h1.2
  · rw [if_neg h1] at h
    by_cases h2 : g ≠ GroupType.Regions ∧ (alookup st.masksMap n).isSome
    · rw [if_pos h2] at h
      have h3 := Option.some.inj h
      subst h3
      exact h2.2
    · rw [if_neg h2] at h
      exact absurd h (by simp)

/-- Claim C3: defining a region under a name that already exists in the
selected namespace with overwrite false signals a Duplicate error; the
same call with overwrite true succeeds and a subsequent getRegion
returns a region equal to the replacement. -/
theorem defineRegion_overwrite_semantics :
    ∀ (st st1 : RegionHandlerMemory) (n : String) (r1 r2 : ImageRegion),
      st.defineRegion n r1 GroupType.Regions false = .ok st1 →
      st1.defineRegion n r2 GroupType.Regions false =
        .error ⟨.duplicate, "defineRegion: region already exists"⟩ ∧
      ∃ st2, st1.defineRegion n r2 GroupType.Regions true = .ok st2 ∧
        st2.getRegion n GroupType.Any true = .ok (some r2) := by
  intro st st1 n r1 r2 h
  simp only [RegionHandlerMemory.defineRegion, RegionHandlerMemory.mapOf,
    RegionHandlerMemory.setMap] at h
  simp only [decide_eq_true_eq, if_false, Bool.false_eq_true, not_false_eq_true,
    true_and, reduceCtorEq, reduceIte] at h
  split at h
  · exact absurd h (by simp)
  · have h2 := Except.ok.inj h
    subst h2
    constructor
    · simp [RegionHandlerMemory.defineRegion, RegionHandlerMemory.mapOf,
        alookup_ainsert_self]
    · refine ⟨_, rfl, ?_⟩
      have hl : alookup (ainsert (ainsert st.regionsMap n r1) n r2) n = some r2 :=
        alookup_ainsert_self _ _ _
      simp [RegionHandlerMemory.getRegion, RegionHandlerMemory.findRegionGroup,
        RegionHandlerMemory.mapOf, RegionHandlerMemory.setMap, hl]

/-- Witness for C3 at a concrete handler, starting from the empty
state. -/
theorem defineRegion_overwrite_semantics_witness :
    (⟨"", [("r", ⟨1⟩)], []⟩ : RegionHandlerMemory).defineRegion "r" ⟨2⟩
        GroupType.Regions false =
      .error ⟨.duplicate, "defineRegion: region already exists"⟩ ∧
    ∃ st2, (⟨"", [("r", ⟨1⟩)], []⟩ : RegionHandlerMemory).defineRegion "r" ⟨2⟩
        GroupType.Regions true = .ok st2 ∧
      st2.getRegion "r" GroupType.Any true = .ok (some ⟨2⟩) :=
  defineRegion_overwrite_semantics ⟨"", [], []⟩ ⟨"", [("r", ⟨1⟩)], []⟩ "r" ⟨1⟩ ⟨2⟩ rfl

/-- Claim C4: the regions and masks namespaces are independent mappings
over the same names: a name may be defined in both namespaces at once,
hasRegion is then true in each, and removing the name from the regions
namespace leaves the masks namespace untouched. -/
theorem region_mask_namespaces_independent :
    ∀ (st st1 : RegionHandlerMemory) (n : String) (r m : ImageRegion),
      st.hasRegion n GroupType.Masks = false →
      st.defineRegion n r GroupType.Regions false = .ok st1 →
      ∃ st2, st1.defineRegion n m GroupType.Masks false = .ok st2 ∧
        st2.hasRegion n GroupType.Regions = true ∧
        st2.hasRegion n GroupType.Masks = true ∧
        ∃ st3, st2.removeRegion n GroupType.Regions true = .ok st3 ∧
          st3.masksMap = st2.masksMap ∧
          st3.hasRegion n GroupType.Masks = true := by
  intro st st1 n r m hmask h
  have hmn : alookup st.masksMap n = none := hasRegion_masks_false_lookup st n hmask
  simp only [RegionHandlerMemory.defineRegion, RegionHandlerMemory.mapOf,
    RegionHandlerMemory.setMap] at h
  simp only [decide_eq_true_eq, if_false, Bool.false_eq_true, not_false_eq_true,
    true_and, reduceCtorEq, reduceIte] at h
  split at h
  · exact absurd h (by simp)
  · have h2 := Except.ok.inj h
    subst h2
    have hreg : alookup (ainsert st.regionsMap n r) n = some r :=
      alookup_ainsert_self _ _ _
    refine ⟨⟨st.itsDefaultName, ainsert st.regionsMap n r, ainsert st.masksMap n m⟩,
      ?_, ?_, ?_, ?_⟩
    · simp [RegionHandlerMemory.defineRegion, RegionHandlerMemory.mapOf,
        RegionHandlerMemory.setMap, hmn]
    · simp [RegionHandlerMemory.hasRegion, RegionHandlerMemory.findRegionGroup,
        RegionHandlerMemory.mapOf, RegionHandlerMemory.setMap, hreg]
    · simp [RegionHandlerMemory.hasRegion, RegionHandlerMemory.findRegionGroup,
        RegionHandlerMemory.mapOf, RegionHandlerMemory.setMap,
        alookup_ainsert_self]
    · refine ⟨⟨st.itsDefaultName, aremove (ainsert st.regionsMap n r) n,
        ainsert st.masksMap n m⟩, ?_, rfl, ?_⟩
      · simp [RegionHandlerMemory.removeRegion, RegionHandlerMemory.findRegionGroup,
          RegionHandlerMemory.mapOf, RegionHandlerMemory.setMap, hreg]
      · simp [RegionHandlerMemory.hasRegion, RegionHandlerMemory.findRegionGroup,
          RegionHandlerMemory.mapOf, RegionHandlerMemory.setMap,
          alookup_ainsert_self]

/-- Witness for C4 at a concrete handler, starting from the empty
state. -/
theorem region_mask_namespaces_independent_witness :
    ∃ st2, (⟨"", [("x", ⟨1⟩)], []⟩ : RegionHandlerMemory).defineRegion "x" ⟨2⟩
        GroupType.Masks false = .ok st2 ∧
      st2.hasRegion "x" GroupType.Regions = true ∧
      st2.hasRegion "x" GroupType.Masks = true ∧
      ∃ st3, st2.removeRegion "x" GroupType.Regions true = .ok st3 ∧
        st3.masksMap = st2.masksMap ∧
        st3.hasRegion "x" GroupType.Masks = true :=
  region_mask_namespaces_independent ⟨"", [], []⟩ ⟨"", [("x", ⟨1⟩)], []⟩ "x" ⟨1⟩ ⟨2⟩
    rfl rfl

/-- Claim C6: getRegion returns a clone of the stored region (content
equal, value copy in this model) when the name exists; when the name is
absent it returns an empty result without an error if throwIfUnknown is
false, and a not-found error otherwise. -/
theorem getRegion_clone_or_notfound :
    ∀ (st : RegionHandlerMemory) (n : String) (g : GroupType),
      (∀ isMask : Bool, st.findRegionGroup n g = some isMask →
        ∃ r, alookup (st.mapOf isMask) n = some r ∧
          ∀ thr : Bool, st.getRegion n g thr = .ok (some r)) ∧
      (st.findRegionGroup n g = none →
        st.getRegion n g false = .ok none ∧
        st.getRegion n g true =
          .error ⟨.notFound, "getRegion: region does not exist"⟩) := by
  intro st n g
  constructor
  · intro isMask h
    have hs := findRegionGroup_some_lookup st n g isMask h
    rw [Option.isSome_iff_exists] at hs
    obtain ⟨r, hr⟩ := hs
    refine ⟨r, hr, ?_⟩
    intro thr
    simp [RegionHandlerMemory.getRegion, h, hr]
  · intro h
    constructor <;> simp [RegionHandlerMemory.getRegion, h]

/-- Witness for C6 at a concrete single-region handler, exercising both
the present and the absent name. -/
theorem getRegion_clone_or_notfound_witness :
    (∃ r, alookup ((⟨"", [("a", ⟨3⟩)], []⟩ : RegionHandlerMemory).mapOf false) "a" =
        some r ∧
      ∀ thr : Bool, (⟨"", [("a", ⟨3⟩)], []⟩ : RegionHandlerMemory).getRegion "a"
        GroupType.Any thr = .ok (some r)) ∧
    ((⟨"", [("a", ⟨3⟩)], []⟩ : RegionHandlerMemory).getRegion "b" GroupType.Any false =
      .ok none ∧
     (⟨"", [("a", ⟨3⟩)], []⟩ : RegionHandlerMemory).getRegion "b" GroupType.Any true =
      .error ⟨.notFound, "getRegion: region does not exist"⟩) :=
  ⟨(getRegion_clone_or_notfound ⟨"", [("a", ⟨3⟩)], []⟩ "a" GroupType.Any).1 false rfl,
   (getRegion_clone_or_notfound ⟨"", [("a", ⟨3⟩)], []⟩ "b" GroupType.Any).2 rfl⟩

/-- Counterexample for claim C5 as stated: in a handler holding "x" in
both the regions and the masks namespace (legal per the namespace
independence of C4) and no "y", renameRegion("y","x") succeeds, yet
hasRegion("x") stays true afterwards, because only the entry in the
namespace in which "x" was found is renamed. -/
theorem renameRegion_both_namespaces_counterexample :
    (⟨"", [("x", ⟨1⟩)], [("x", ⟨2⟩)]⟩ : RegionHandlerMemory).hasRegion "x"
      GroupType.Any = true ∧
    (⟨"", [("x", ⟨1⟩)], [("x", ⟨2⟩)]⟩ : RegionHandlerMemory).hasRegion "y"
      GroupType.Any = false ∧
    (⟨"", [("x", ⟨1⟩)], [("x", ⟨2⟩)]⟩ : RegionHandlerMemory).renameRegion "y" "x"
      GroupType.Any false = .ok ⟨"", [("y", ⟨1⟩)], [("x", ⟨2⟩)]⟩ ∧
    (⟨"", [("y", ⟨1⟩)], [("x", ⟨2⟩)]⟩ : RegionHandlerMemory).hasRegion "x"
      GroupType.Any = true :=
  ⟨rfl, rfl, rfl, rfl⟩

/-- Claim C5 (amended): for every handler state in which the old name
exists in exactly one of the two namespaces and the new name exists in
neither, renameRegion succeeds; afterwards the old name is absent, the
new name is present with content equal to the original, the entry was
removed from and reinserted into the namespace in which the old name was
found, and the other namespace is untouched.  When the old name is
absent renameRegion signals a Not-Found error.  (The restriction to a
single namespace is forced by the counterexample: with the old name in
both namespaces only the entry found first is renamed.) -/
theorem renameRegion_moves_entry :
    (∀ (st : RegionHandlerMemory) (oldN newN : String) (isMask : Bool),
      st.findRegionGroup oldN GroupType.Any = some isMask →
      alookup (st.mapOf (!isMask)) oldN = none →
      st.hasRegion newN GroupType.Any = false →
      ∃ st2, st.renameRegion newN oldN GroupType.Any false = .ok st2 ∧
        st2.hasRegion oldN GroupType.Any = false ∧
        st2.hasRegion newN GroupType.Any = true ∧
        st2.getRegion newN GroupType.Any true = st.getRegion oldN GroupType.Any true ∧
        st2.mapOf (!isMask) = st.mapOf (!isMask)) ∧
    (∀ (st : RegionHandlerMemory) (oldN newN : String) (g : GroupType) (ow : Bool),
      st.hasRegion oldN g = false →
      st.renameRegion newN oldN g ow =
        .error ⟨.notFound, "renameRegion: old region does not exist"⟩) := by
  constructor
  · intro st oldN newN isMask hfind hother hnew
    have hnewr := hasRegion_any_false_lookup st newN hnew
    have hs := findRegionGroup_some_lookup st oldN GroupType.Any isMask hfind
    rw [Option.isSome_iff_exists] at hs
    obtain ⟨r, hr⟩ := hs
    have hnewm : alookup (st.mapOf isMask) newN = none := by
      cases isMask
      · exact hnewr.1
      · exact hnewr.2
    have hne : oldN ≠ newN := by
      intro he
      subst he
      rw [hr] at hnewm
      exact absurd hnewm (by simp)
    have hRHS : st.getRegion oldN GroupType.Any true = .ok (some r) := by
      simp [RegionHandlerMemory.getRegion, hfind, hr]
    cases isMask
    · rw [show st.mapOf false = st.regionsMap from rfl] at hr hnewm
      rw [show st.mapOf (!false) = st.masksMap from rfl] at hother
      have hgone : alookup (ainsert (aremove st.regionsMap oldN) newN r) oldN
          = none := by
        rw [alookup_ainsert_ne _ _ _ _ hne, alookup_aremove_self]
      have hhit : alookup (ainsert (aremove st.regionsMap oldN) newN r) newN
          = some r := alookup_ainsert_self _ _ _
      refine ⟨⟨st.itsDefaultName, ainsert (aremove st.regionsMap oldN) newN r,
        st.masksMap⟩, ?_, ?_, ?_, ?_, rfl⟩
      · simp [RegionHandlerMemory.renameRegion, RegionHandlerMemory.mapOf,
          RegionHandlerMemory.setMap, hfind, hr, hnewm]
      · simp [RegionHandlerMemory.hasRegion, RegionHandlerMemory.findRegionGroup,
          hgone, hother]
      · simp [RegionHandlerMemory.hasRegion, RegionHandlerMemory.findRegionGroup,
          hhit]
      · rw [hRHS]
        simp [RegionHandlerMemory.getRegion, RegionHandlerMemory.findRegionGroup,
          RegionHandlerMemory.mapOf, hhit]
    · rw [show st.mapOf true = st.masksMap from rfl] at hr hnewm
      rw [show st.mapOf (!true) = st.regionsMap from rfl] at hother
      have hgone : alookup (ainsert (aremove st.masksMap oldN) newN r) oldN
          = none := by
        rw [alookup_ainsert_ne _ _ _ _ hne, alookup_aremove_self]
      have hhit : alookup (ainsert (aremove st.masksMap oldN) newN r) newN
          = some r := alookup_ainsert_self _ _ _
      refine ⟨⟨st.itsDefaultName, st.regionsMap,
        ainsert (aremove st.masksMap oldN) newN r⟩, ?_, ?_, ?_, ?_, rfl⟩
      · simp [RegionHandlerMemory.renameRegion, RegionHandlerMemory.mapOf,
          RegionHandlerMemory.setMap, hfind, hr, hnewm]
      · simp [RegionHandlerMemory.hasRegion, RegionHandlerMemory.findRegionGroup,
          hgone, hother]
      · simp [RegionHandlerMemory.hasRegion, RegionHandlerMemory.findRegionGroup,
          hhit, hnewr.1]
      · rw [hRHS]
        simp [RegionHandlerMemory.getRegion, RegionHandlerMemory.findRegionGroup,
          RegionHandlerMemory.mapOf, hhit, hnewr.1]
  · intro st oldN newN g ow h
    rw [RegionHandlerMemory.hasRegion] at h
    have h0 : st.findRegionGroup oldN g = none :=
      Option.not_isSome_iff_eq_none.mp (by simp [h])
    simp [RegionHandlerMemory.renameRegion, h0]

/-- Witness for the amended C5 at a concrete handler holding "x" only in
the regions namespace, plus the not-found branch at an absent name. -/
theorem renameRegion_moves_entry_witness :
    (∃ st2, (⟨"", [("x", ⟨1⟩)], []⟩ : RegionHandlerMemory).renameRegion "y" "x"
        GroupType.Any false = .ok st2 ∧
      st2.hasRegion "x" GroupType.Any = false ∧
      st2.hasRegion "y" GroupType.Any = true ∧
      st2.getRegion "y" GroupType.Any true =
        (⟨"", [("x", ⟨1⟩)], []⟩ : RegionHandlerMemory).getRegion "x"
          GroupType.Any true ∧
      st2.mapOf (!false) = (⟨"", [("x", ⟨1⟩)], []⟩ : RegionHandlerMemory).mapOf
        (!false)) ∧
    (⟨"", [("x", ⟨1⟩)], []⟩ : RegionHandlerMemory).renameRegion "y" "q"
        GroupType.Any false =
      .error ⟨.notFound, "renameRegion: old region does not exist"⟩ :=
  ⟨renameRegion_moves_entry.1 ⟨"", [("x", ⟨1⟩)], []⟩ "x" "y" false rfl rfl rfl,
   renameRegion_moves_entry.2 ⟨"", [("x", ⟨1⟩)], []⟩ "q" "y" GroupType.Any false rfl⟩

/-- Claim C1: for every supported primitive scalar and array type and
every well-formed value, reading back what was written through the typed
binary stream returns the value exactly, for the single-value operators
and for multi-value reads of n elements, whose written form is by
definition the concatenation of n single-value writes; the rest of the
stream is untouched. -/
theorem tbs_read_write_roundtrip :
    (∀ (v : SValue) (rest : List Nat), v.wf = true →
      readVal v.typeOf (writeVal v ++ rest) = some (v, rest)) ∧
    (∀ (v : SValue) (vs : List SValue),
      writeMany (v :: vs) = writeVal v ++ writeMany vs) ∧
    (∀ (t : SType) (vs : List SValue) (rest : List Nat),
      (∀ v ∈ vs, v.typeOf = t ∧ v.wf = true) →
      readMany t vs.length (writeMany vs ++ rest) = some (vs, rest)) :=
  ⟨readVal_writeVal, fun _ _ => rfl, readMany_writeMany⟩

/-- Witness for C1 at concrete values of several types, including a
negative integer, a string and a complex value. -/
theorem tbs_read_write_roundtrip_witness :
    readVal SType.tInt (writeVal (SValue.vInt (-5)) ++ [9]) =
      some (SValue.vInt (-5), [9]) ∧
    readVal SType.tString (writeVal (SValue.vString [104, 105]) ++ [7]) =
      some (SValue.vString [104, 105], [7]) ∧
    readVal SType.tComplex (writeVal (SValue.vComplex 12 34) ++ []) =
      some (SValue.vComplex 12 34, []) ∧
    readMany SType.tShort 2 (writeMany [SValue.vShort 300, SValue.vShort (-2)] ++ [1]) =
      some ([SValue.vShort 300, SValue.vShort (-2)], [1]) :=
  ⟨tbs_read_write_roundtrip.1 (SValue.vInt (-5)) [9] (by decide),
   tbs_read_write_roundtrip.1 (SValue.vString [104, 105]) [7] (by decide),
   tbs_read_write_roundtrip.1 (SValue.vComplex 12 34) [] (by decide),
   tbs_read_write_roundtrip.2.2 SType.tShort [SValue.vShort 300, SValue.vShort (-2)]
     [1] (by decide)⟩

/-- Counterexample for claim C7 as stated: a Double field is wider than
the requested Int type, yet the toArrayInt switch of Record2Interface.cc
has no Double case, so the conversion falls through to asArrayInt and
signals an invalid-conversion error instead of succeeding. -/
theorem toArrayInt_double_field_counterexample :
    toArrayIntM ⟨DataType.TpDouble, [1], [5]⟩ =
      .error ⟨.generic, "asArrayInt: invalid data type"⟩ :=
  rfl

/-- Claim C7 (amended): for every record field whose stored element type
is wider than the requested numeric type and whose conversion the
ladder provides - an Int64 field requested through toArrayInt, and an
Int64 or Double field requested through toArrayFloat - the conversion
succeeds without signalling an error, returns an array whose shape
equals the stored field's shape, and converts each element elementwise
with silent truncation/narrowing; the narrowings are defined but lossy,
as the closing conjuncts exhibit on distinct values with equal images.
(A wider stored type without a ladder case, a Double field requested
through toArrayInt, signals an invalid-conversion error instead, per
the counterexample.) -/
theorem toArray_wide_field_truncates :
    (∀ f : RecField,
      f.dtype = DataType.TpInt64 ∨ f.dtype = DataType.TpArrayInt64 →
      toArrayIntM f = .ok (f.shape, f.values.map wrap32)) ∧
    (∀ f : RecField,
      f.dtype = DataType.TpInt64 ∨ f.dtype = DataType.TpArrayInt64 ∨
        f.dtype = DataType.TpDouble ∨ f.dtype = DataType.TpArrayDouble →
      toArrayFloatM f = .ok (f.shape, f.values.map roundToFloat)) ∧
    wrap32 4294967296 = wrap32 0 ∧ (4294967296 : Int) ≠ 0 ∧
    roundToFloat 16777217 = roundToFloat 16777216 ∧
    (16777217 : Int) ≠ 16777216 := by
  refine ⟨?_, ?_, by decide, by decide, by decide, by decide⟩
  · intro f h
    obtain ⟨d, sh, vals⟩ := f
    dsimp only at h
    rcases h with h | h <;> subst h <;> rfl
  · intro f h
    obtain ⟨d, sh, vals⟩ := f
    dsimp only at h
    rcases h with h | h | h | h <;> subst h <;> rfl

/-- Witness for the amended C7: an Int64 field through toArrayInt and a
Double field through toArrayFloat, each holding a value the narrowing
truncates. -/
theorem toArray_wide_field_truncates_witness :
    toArrayIntM ⟨DataType.TpInt64, [2], [4294967303, -1]⟩ =
      .ok ([2], ([4294967303, -1] : List Int).map wrap32) ∧
    toArrayFloatM ⟨DataType.TpDouble, [2], [16777217, 3]⟩ =
      .ok ([2], ([16777217, 3] : List Int).map roundToFloat) :=
  ⟨toArray_wide_field_truncates.1 ⟨DataType.TpInt64, [2], [4294967303, -1]⟩
     (Or.inl rfl),
   toArray_wide_field_truncates.2.1 ⟨DataType.TpDouble, [2], [16777217, 3]⟩
     (Or.inr (Or.inr (Or.inl rfl)))⟩
